import Mathlib

/-!
Shallow embedding of `readthedocs/oauth/services/github.py` (`GitHubService`).

The ORM tables are modelled as Lean lists of records; `objects.get` keyed by
(full_name / slug, user, account) is `List.find?` over the key predicate
(faithful whenever the key matches at most one row, the model's standing
invariant); `objects.create` appends a fresh row; `save()` replaces the first
row matching the key.  Users, accounts and organization primary keys are `Nat`.
API JSON payloads are records of the fields the code reads; a payload that
would raise `TypeError`/`ValueError` when its fields are accessed (malformed
JSON item) is modelled as `none` in an `Option` payload.  `json.dumps(fields)`
is modelled by storing the payload record itself (an injective serialization).
HTTP responses are modelled by their parsed content; a transport exception is
an `Except.error`.  Logging is I/O and is outside the model.
-/

/-- API payload for one repository, with the fields
`create_repository` reads.  `permissions_admin` stands for
`fields.get('permissions', {}).get('admin', False)` and `owner_avatar_url`
for `fields.get('owner', {}).get('avatar_url')`. -/
structure RepoFields where
  full_name : String
  name : String
  description : String
  ssh_url : String
  html_url : String
  «private» : Bool
  clone_url : String
  permissions_admin : Bool
  owner_avatar_url : Option String
deriving DecidableEq

/-- A `RemoteRepository` row.  `organization` holds the primary key of the
linked `RemoteOrganization`, if any; `json` holds the raw payload snapshot. -/
structure RemoteRepository where
  full_name : String
  users : List Nat
  account : Nat
  organization : Option Nat := none
  name : String := ""
  description : String := ""
  ssh_url : String := ""
  html_url : String := ""
  «private» : Bool := false
  clone_url : String := ""
  admin : Bool := false
  vcs : String := ""
  avatar_url : Option String := none
  json : Option RepoFields := none
deriving DecidableEq

/-- The key predicate of the `RemoteRepository.objects.get` call:
`full_name=..., users=self.user, account=self.account`. -/
def repoKeyMatch (full_name : String) (user account : Nat)
    (r : RemoteRepository) : Bool :=
  r.full_name == full_name && r.users.contains user && r.account == account

/-- `RemoteRepository.objects.get(full_name=..., users=..., account=...)`,
returning `none` for `DoesNotExist`. -/
def getRepoByKey (db : List RemoteRepository) (full_name : String)
    (user account : Nat) : Option RemoteRepository :=
  db.find? (repoKeyMatch full_name user account)

/-- Number of rows matching the repository natural key. -/
def countRepoKey (db : List RemoteRepository) (full_name : String)
    (user account : Nat) : Nat :=
  db.countP (fun r => repoKeyMatch full_name user account r)

/-- `row.save()` on an existing row: replace the first row matching `p`. -/
def replaceFirst {α : Type} (p : α → Bool) (new : α) : List α → List α
  | [] => []
  | r :: rest => if p r then new :: rest else r :: replaceFirst p new rest

/-- The visibility filter guarding the whole body of `create_repository`:
`privacy == 'private' or (fields['private'] is False and privacy == 'public')`. -/
def importCond (fields : RepoFields) (privacy : String) : Bool :=
  privacy == "private" || (fields.«private» == false && privacy == "public")

/-- The field-overwrite block of `create_repository` (source lines 99–113):
every mutable field is overwritten from the payload, `clone_url` is the SSH
URL when the (just assigned) private flag is set and the HTTPS clone URL
otherwise, and `vcs` is fixed to `git`. -/
def applyRepoFields (repo : RemoteRepository) (fields : RepoFields)
    (account : Nat) (organization : Option Nat) : RemoteRepository :=
  { repo with
    organization := organization
    name := fields.name
    description := fields.description
    ssh_url := fields.ssh_url
    html_url := fields.html_url
    «private» := fields.«private»
    clone_url := if fields.«private» then fields.ssh_url
                 else fields.clone_url
    admin := fields.permissions_admin
    vcs := "git"
    account := account
    avatar_url := fields.owner_avatar_url
    json := some fields }

/-- The part of `create_repository` after the get-or-create lookup (source
lines 94–115): the organization-conflict check `repo.organization and
repo.organization != organization` guards the field overwrite and save.
`db1` is the table state after the lookup (the `DoesNotExist` branch has
already inserted the bare row). -/
def saveRepository (user account : Nat) (fields : RepoFields)
    (organization : Option Nat) (repo : RemoteRepository)
    (db1 : List RemoteRepository) :
    Option RemoteRepository × List RemoteRepository :=
  if repo.organization.isSome && repo.organization != organization then
    (none, db1)
  else
    (some (applyRepoFields repo fields account organization),
     replaceFirst (repoKeyMatch fields.full_name user account)
       (applyRepoFields repo fields account organization) db1)

/-- `GitHubService.create_repository(fields, privacy, organization)`.
Returns the persisted row (or `none` when skipped) together with the updated
repository table.  The `DoesNotExist` branch creates the bare row (with the
current user attached) before the organization-conflict check, exactly as
the source does. -/
def create_repository (user account : Nat) (db : List RemoteRepository)
    (fields : RepoFields) (privacy : String) (organization : Option Nat) :
    Option RemoteRepository × List RemoteRepository :=
  if importCond fields privacy then
    match getRepoByKey db fields.full_name user account with
    | some repo => saveRepository user account fields organization repo db
    | none =>
      saveRepository user account fields organization
        { full_name := fields.full_name, account := account, users := [user] }
        (db ++ [{ full_name := fields.full_name, account := account,
                  users := [user] }])
  else
    (none, db)

/-- Whether `create_repository` would hit its organization-conflict branch:
an existing row for the key is linked to an organization different from the
one being synced. -/
def orgConflict (db : List RemoteRepository) (full_name : String)
    (user account : Nat) (organization : Option Nat) : Bool :=
  match getRepoByKey db full_name user account with
  | some r => r.organization.isSome && r.organization != organization
  | none => false

/-- API payload for one organization, with the fields `create_organization`
reads (all via `fields.get(...)`, hence `Option`). -/
structure OrgFields where
  login : Option String
  html_url : Option String
  name : Option String
  email : Option String
  avatar_url : Option String
deriving DecidableEq

/-- A `RemoteOrganization` row.  `id` is the primary key (assigned at
creation), referenced by `RemoteRepository.organization`. -/
structure RemoteOrganization where
  id : Nat
  slug : Option String
  users : List Nat
  account : Nat
  url : Option String := none
  name : Option String := none
  email : Option String := none
  avatar_url : Option String := none
  json : Option OrgFields := none
deriving DecidableEq

/-- The organization table together with the next fresh primary key. -/
structure OrgDB where
  orgs : List RemoteOrganization
  next_id : Nat
deriving DecidableEq

/-- The key predicate of the `RemoteOrganization.objects.get` call:
`slug=..., users=self.user, account=self.account`. -/
def orgKeyMatch (slug : Option String) (user account : Nat)
    (o : RemoteOrganization) : Bool :=
  o.slug == slug && o.users.contains user && o.account == account

/-- Number of rows matching the organization natural key. -/
def countOrgKey (db : List RemoteOrganization) (slug : Option String)
    (user account : Nat) : Nat :=
  db.countP (fun o => orgKeyMatch slug user account o)

/-- The field-overwrite block of `create_organization` (source lines
138–143): every mutable field is overwritten from the payload. -/
def applyOrgFields (organization : RemoteOrganization) (fields : OrgFields)
    (account : Nat) : RemoteOrganization :=
  { organization with
    url := fields.html_url
    name := fields.name
    email := fields.email
    avatar_url := fields.avatar_url
    json := some fields
    account := account }

/-- `GitHubService.create_organization(fields)`: get-or-create by
(slug, user, account), then unconditionally overwrite the mutable fields and
save.  Returns the persisted row and the updated table. -/
def create_organization (user account : Nat) (db : OrgDB)
    (fields : OrgFields) : RemoteOrganization × OrgDB :=
  match db.orgs.find? (orgKeyMatch fields.login user account) with
  | some organization =>
    (applyOrgFields organization fields account,
     { db with
       orgs := replaceFirst (orgKeyMatch fields.login user account)
                 (applyOrgFields organization fields account) db.orgs })
  | none =>
    (applyOrgFields
       { id := db.next_id, slug := fields.login, account := account,
         users := [user] } fields account,
     { orgs := replaceFirst (orgKeyMatch fields.login user account)
                 (applyOrgFields
                    { id := db.next_id, slug := fields.login,
                      account := account, users := [user] } fields account)
                 (db.orgs ++
                  [{ id := db.next_id, slug := fields.login,
                     account := account, users := [user] }])
       next_id := db.next_id + 1 })

/-- A chain of API pages reachable by following `next` links from a start
URL: each page carries its parsed JSON array body, and either a `next` link
to a further page or no such link. -/
inductive PageChain (α : Type) where
  | last : List α → PageChain α
  | next : List α → PageChain α → PageChain α
deriving DecidableEq

/-- `GitHubService.paginate(url)`: the body of the fetched page, extended
with the recursive result when the response carries a `next` link. -/
def paginate {α : Type} : PageChain α → List α
  | .last items => items
  | .next items rest => items ++ paginate rest

/-- The pages of a chain, in order, as a list of item lists. -/
def pagesOf {α : Type} : PageChain α → List (List α)
  | .last items => [items]
  | .next items rest => items :: pagesOf rest

/-- `GitHubService.setup_webhook(project)`.  The POST's outcome is its
status code, or a transport (`RequestException`) failure; the return value
is `some true` (201), `some false` (other status; the try's `else` clause),
or `none` (exception caught, function falls off the end returning `None`). -/
def setup_webhook (resp : Except Unit Nat) : Option Bool :=
  match resp with
  | .ok status_code => if status_code == 201 then some true else some false
  | .error _ => none

/-- `GitHubService.get_token_for_project(project, force_local)`.
`api_token` is the outcome of the remote token-lookup call
(`api.project(pk).token().get()['token']`), which may raise; `tokensOf u`
is the list of stored `SocialToken`s matching the provider for user `u`
(`tokens[0].token` being its head).  The loop over `project.users.all()`
overwrites `token` at every user having a matching credential and never
breaks; any exception inside the `try` is caught, leaving `token` as last
assigned (`none` when the remote call raised before assignment). -/
def get_token_for_project (allow_private_repos dont_hit_db force_local : Bool)
    (api_token : Except Unit String) (project_users : List Nat)
    (tokensOf : Nat → List String) : Option String :=
  if !allow_private_repos then none
  else if dont_hit_db && !force_local then
    match api_token with
    | .ok t => some t
    | .error _ => none
  else
    project_users.foldl
      (fun token u =>
        match tokensOf u with
        | [] => token
        | t :: _ => some t)
      none

/-- The first matching credential over the users, in iteration order:
what the spec's "first match found" denotes. -/
def firstMatchToken (project_users : List Nat)
    (tokensOf : Nat → List String) : Option String :=
  project_users.findSome? (fun u => (tokensOf u).head?)

/-- The last user having a matching credential contributes the token:
what the code's non-breaking loop actually returns. -/
def lastMatchToken (project_users : List Nat)
    (tokensOf : Nat → List String) : Option String :=
  project_users.reverse.findSome? (fun u => (tokensOf u).head?)

/-- One item of a paginated repository listing: `some fields` when the JSON
object is well formed, `none` when accessing its fields would raise
`TypeError`/`ValueError` (a malformed item). -/
abbrev RepoPayload := Option RepoFields

/-- The `for repo in repos: self.create_repository(repo, ...)` loop.
Stops at the first malformed item (the raised `TypeError`/`ValueError`
aborts the loop); also returns how many items were consumed, each exactly
once — the loop never revisits an item. -/
def import_repos (user account : Nat) (privacy : String)
    (organization : Option Nat) (db : List RemoteRepository) :
    List RepoPayload → Except Unit (List RemoteRepository) × Nat
  | [] => (.ok db, 0)
  | item :: rest =>
    match item with
    | none => (.error (), 1)
    | some fields =>
      let db1 := (create_repository user account db fields privacy
                    organization).2
      let res := import_repos user account privacy organization db1 rest
      (res.1, res.2 + 1)

/-- The user-facing error `sync_repositories` raises on a caught
`TypeError`/`ValueError`. -/
def syncReposError : String :=
  "Could not sync your GitHub repositories, try reconnecting your account"

/-- The user-facing error `sync_organizations` raises on a caught
`TypeError`/`ValueError`. -/
def syncOrgsError : String :=
  "Could not sync your GitHub organizations, try reconnecting your account"

/-- `GitHubService.sync_repositories()`: upsert every payload of the
paginated `/user/repos` listing (privacy defaulting to
`DEFAULT_PRIVACY_LEVEL`, no organization); a `TypeError`/`ValueError` is
caught, logged, and replaced by the generic reconnect-account error.
No retry is performed. -/
def sync_repositories (user account : Nat) (privacy : String)
    (repo_items : List RepoPayload) (db : List RemoteRepository) :
    Except String (List RemoteRepository) :=
  match (import_repos user account privacy none db repo_items).1 with
  | .ok db' => .ok db'
  | .error _ => .error syncReposError

/-- One organization of the `/user/orgs` listing, with what the two further
API calls for it return: the organization detail response body
(`none` = malformed) and the paginated listing of the organization's
repositories. -/
structure OrgEntry where
  detail : Option OrgFields
  repos : List RepoPayload

/-- The whole database state the sync touches. -/
structure DBState where
  repos : List RemoteRepository
  orgdb : OrgDB
deriving DecidableEq

/-- The `for org in orgs` loop of `sync_organizations`: fetch the detail,
upsert the organization, then upsert each of its repositories linked to the
persisted organization's primary key.  A malformed payload anywhere raises
(`.error`). -/
def import_orgs (user account : Nat) (privacy : String) (st : DBState) :
    List OrgEntry → Except Unit DBState
  | [] => .ok st
  | entry :: rest =>
    match entry.detail with
    | none => .error ()
    | some gfields =>
      let stp := create_organization user account st.orgdb gfields
      match (import_repos user account privacy (some stp.1.id) st.repos
               entry.repos).1 with
      | .error _ => .error ()
      | .ok repos' =>
        import_orgs user account privacy { repos := repos', orgdb := stp.2 }
          rest

/-- `GitHubService.sync_organizations()`: the loop above with
`TypeError`/`ValueError` caught and replaced by the generic
reconnect-account error. -/
def sync_organizations (user account : Nat) (privacy : String)
    (org_entries : List OrgEntry) (st : DBState) : Except String DBState :=
  match import_orgs user account privacy st org_entries with
  | .ok st' => .ok st'
  | .error _ => .error syncOrgsError

/-- Everything `sync()` consumes from the API. -/
structure SyncEnv where
  user : Nat
  account : Nat
  privacy : String
  repo_items : List RepoPayload
  org_entries : List OrgEntry

/-- `GitHubService.sync()`: `self.sync_repositories()` then
`self.sync_organizations()`, with no exception handling of its own — an
exception from the first stage propagates and the second stage is never
entered.  Alongside the outcome, the list of stages actually attempted is
returned, in order. -/
def sync (env : SyncEnv) (st : DBState) :
    Except String DBState × List String :=
  match sync_repositories env.user env.account env.privacy env.repo_items
          st.repos with
  | .error e => (.error e, ["sync_repositories"])
  | .ok repos' =>
    match sync_organizations env.user env.account env.privacy env.org_entries
            { st with repos := repos' } with
    | .error e => (.error e, ["sync_repositories", "sync_organizations"])
    | .ok st' => (.ok st', ["sync_repositories", "sync_organizations"])

/-- A well-formed public-repository payload, used as concrete input. -/
def sampleFields : RepoFields :=
  { full_name := "org/repo"
    name := "repo"
    description := "docs"
    ssh_url := "git@github.com:org/repo.git"
    html_url := "https://github.com/org/repo"
    «private» := false
    clone_url := "https://github.com/org/repo.git"
    permissions_admin := true
    owner_avatar_url := some "https://avatars.example/1" }

/-- The same payload flagged private. -/
def samplePrivateFields : RepoFields :=
  { sampleFields with «private» := true }

/-- An existing row for `sampleFields`'s key, already linked to the
organization with primary key 5. -/
def sampleLinkedRepo : RemoteRepository :=
  { full_name := "org/repo", users := [1], account := 1,
    organization := some 5 }

/-- A well-formed organization payload, used as concrete input. -/
def sampleOrgFields : OrgFields :=
  { login := some "org"
    html_url := some "https://github.com/org"
    name := some "Org"
    email := none
    avatar_url := none }

/- ## General lemmas about the list-database primitives -/

theorem replaceFirst_length {α : Type} (p : α → Bool) (new : α) :
    ∀ l : List α, (replaceFirst p new l).length = l.length := by
  intro l
  induction l with
  | nil => rfl
  | cons r rest ih =>
    by_cases h : p r = true <;> simp [replaceFirst, h, ih]

theorem countP_replaceFirst {α : Type} (p : α → Bool) (new : α)
    (hnew : p new = true) :
    ∀ l : List α, (replaceFirst p new l).countP p = l.countP p := by
  intro l
  induction l with
  | nil => rfl
  | cons r rest ih =>
    by_cases h : p r = true <;>
      simp [replaceFirst, h, List.countP_cons, ih, hnew]

theorem replaceFirst_append_left {α : Type} (p : α → Bool) (new : α)
    (l1 l2 : List α) (h : ∀ x ∈ l1, ¬p x = true) :
    replaceFirst p new (l1 ++ l2) = l1 ++ replaceFirst p new l2 := by
  induction l1 with
  | nil => rfl
  | cons r rest ih =>
    have hr : ¬p r = true := h r (List.mem_cons_self r rest)
    simp only [List.cons_append, replaceFirst, if_neg hr]
    exact congrArg (List.cons r) (ih (fun x hx => h x (List.mem_cons_of_mem r hx)))

theorem find?_append_left_none {α : Type} (p : α → Bool) (l1 l2 : List α)
    (h : ∀ x ∈ l1, ¬p x = true) :
    (l1 ++ l2).find? p = l2.find? p := by
  induction l1 with
  | nil => rfl
  | cons r rest ih =>
    have hr : ¬p r = true := h r (List.mem_cons_self r rest)
    simp only [List.cons_append, List.find?_cons, Bool.not_eq_true] at hr ⊢
    rw [hr]
    exact ih (fun x hx => h x (List.mem_cons_of_mem r hx))


/- ## Facts about the lookup and save stages of create_repository -/

theorem saveRepository_of_conflict (user account : Nat) (fields : RepoFields)
    (organization : Option Nat) (repo : RemoteRepository)
    (db1 : List RemoteRepository)
    (h : (repo.organization.isSome && repo.organization != organization) = true) :
    saveRepository user account fields organization repo db1 = (none, db1) := by
  simp only [saveRepository, h, if_true]

theorem saveRepository_of_no_conflict (user account : Nat)
    (fields : RepoFields) (organization : Option Nat)
    (repo : RemoteRepository) (db1 : List RemoteRepository)
    (h : (repo.organization.isSome && repo.organization != organization) = false) :
    saveRepository user account fields organization repo db1 =
      (some (applyRepoFields repo fields account organization),
       replaceFirst (repoKeyMatch fields.full_name user account)
         (applyRepoFields repo fields account organization) db1) := by
  simp only [saveRepository, h, Bool.false_eq_true, if_false]

theorem create_repository_not_import (user account : Nat)
    (db : List RemoteRepository) (fields : RepoFields) (privacy : String)
    (organization : Option Nat)
    (him : importCond fields privacy = false) :
    create_repository user account db fields privacy organization =
      (none, db) := by
  simp only [create_repository, him, Bool.false_eq_true, if_false]

theorem create_repository_existing (user account : Nat)
    (db : List RemoteRepository) (fields : RepoFields) (privacy : String)
    (organization : Option Nat) (r : RemoteRepository)
    (him : importCond fields privacy = true)
    (hget : getRepoByKey db fields.full_name user account = some r) :
    create_repository user account db fields privacy organization =
      saveRepository user account fields organization r db := by
  simp only [create_repository, him, if_true, hget]

theorem create_repository_fresh (user account : Nat)
    (db : List RemoteRepository) (fields : RepoFields) (privacy : String)
    (organization : Option Nat)
    (him : importCond fields privacy = true)
    (hget : getRepoByKey db fields.full_name user account = none) :
    create_repository user account db fields privacy organization =
      saveRepository user account fields organization
        { full_name := fields.full_name, account := account, users := [user] }
        (db ++ [{ full_name := fields.full_name, account := account,
                  users := [user] }]) := by
  simp only [create_repository, him, if_true, hget]

/- ## C4: pagination concatenates all pages in order -/

/-- C4: for every sequence of pages reachable by following next links from
the start URL, `paginate` returns the concatenation of all pages' items in
original order (page 1's items first, then page 2's, and so on). -/
theorem paginate_eq_flatten_pages {α : Type} (c : PageChain α) :
    paginate c = (pagesOf c).flatten := by
  induction c with
  | last items => simp [paginate, pagesOf]
  | next items rest ih => simp [paginate, pagesOf, ih]

/- ## C6: the three outcomes of setup_webhook -/

/-- C6: `setup_webhook` returns `some true` if and only if the POST yielded
HTTP 201; it returns `some false` when a response with any other status was
received without a transport exception; and on a transport exception it
returns `none` (the exception is caught and the function falls off the end,
which callers must treat as falsy). -/
theorem setup_webhook_three_outcomes (resp : Except Unit Nat) :
    (setup_webhook resp = some true ↔ resp = .ok 201) ∧
    (∀ c, resp = .ok c → c ≠ 201 → setup_webhook resp = some false) ∧
    (∀ e, resp = .error e → setup_webhook resp = none) := by
  refine ⟨?_, ?_, ?_⟩
  · cases resp with
    | ok c =>
      by_cases h : c = 201
      · subst h; simp [setup_webhook]
      · simp [setup_webhook, h]
    | error e => simp [setup_webhook]
  · rintro c rfl h
    simp [setup_webhook, h]
  · rintro e rfl
    rfl

/-- Concrete instances of the C6 theorem: a 404 response yields an explicit
failure and a transport exception yields no value. -/
theorem setup_webhook_three_outcomes_witness :
    setup_webhook (Except.ok 404) = some false ∧
    setup_webhook (Except.error ()) = none :=
  ⟨(setup_webhook_three_outcomes (Except.ok 404)).2.1 404 rfl (by decide),
   (setup_webhook_three_outcomes (Except.error ())).2.2 () rfl⟩

/-- Exhaustive case analysis of `create_repository`: skipped by the
visibility filter, skipped by the organization conflict, or persisted with
all fields overwritten from the payload. -/
theorem create_repository_cases (user account : Nat)
    (db : List RemoteRepository) (fields : RepoFields) (privacy : String)
    (organization : Option Nat) :
    (importCond fields privacy = false ∧
     create_repository user account db fields privacy organization =
       (none, db)) ∨
    (importCond fields privacy = true ∧
     orgConflict db fields.full_name user account organization = true ∧
     create_repository user account db fields privacy organization =
       (none, db)) ∨
    (importCond fields privacy = true ∧
     orgConflict db fields.full_name user account organization = false ∧
     ∃ repo db1,
       db.length ≤ db1.length ∧
       create_repository user account db fields privacy organization =
         (some (applyRepoFields repo fields account organization),
          replaceFirst (repoKeyMatch fields.full_name user account)
            (applyRepoFields repo fields account organization) db1)) := by
  by_cases him : importCond fields privacy = true
  · rcases hget : getRepoByKey db fields.full_name user account with _ | repo
    · right; right
      exact ⟨him, by simp [orgConflict, hget],
        { full_name := fields.full_name, account := account, users := [user] },
        db ++ [{ full_name := fields.full_name, account := account,
                 users := [user] }],
        by simp,
        by
          rw [create_repository_fresh _ _ _ _ _ _ him hget]
          exact saveRepository_of_no_conflict user account fields organization
            { full_name := fields.full_name, account := account,
              users := [user] }
            (db ++ [{ full_name := fields.full_name, account := account,
                      users := [user] }]) rfl⟩
    · by_cases hc : (repo.organization.isSome &&
          repo.organization != organization) = true
      · right; left
        refine ⟨him, by simp [orgConflict, hget, hc], ?_⟩
        rw [create_repository_existing _ _ _ _ _ _ _ him hget,
            saveRepository_of_conflict _ _ _ _ _ _ hc]
      · right; right
        rw [Bool.not_eq_true] at hc
        refine ⟨him, by simp [orgConflict, hget, hc], repo, db, le_refl _, ?_⟩
        rw [create_repository_existing _ _ _ _ _ _ _ him hget,
            saveRepository_of_no_conflict _ _ _ _ _ _ hc]
  · rw [Bool.not_eq_true] at him
    exact Or.inl ⟨him, create_repository_not_import _ _ _ _ _ _ him⟩

/- ## C2: clone URL selection -/

/-- C2: every record persisted by `create_repository` carries the payload's
private flag, its clone URL equals the payload's SSH URL when the record is
private, and equals the payload's anonymous (HTTPS) clone URL when it is
public. -/
theorem create_repository_clone_url (user account : Nat)
    (db : List RemoteRepository) (fields : RepoFields) (privacy : String)
    (organization : Option Nat) (r : RemoteRepository)
    (db' : List RemoteRepository)
    (h : create_repository user account db fields privacy organization =
      (some r, db')) :
    r.«private» = fields.«private» ∧
    (r.«private» = true → r.clone_url = fields.ssh_url) ∧
    (r.«private» = false → r.clone_url = fields.clone_url) := by
  rcases create_repository_cases user account db fields privacy organization
    with ⟨-, heq⟩ | ⟨-, -, heq⟩ | ⟨-, -, repo, db1, -, heq⟩
  · rw [heq] at h; exact absurd h (by simp)
  · rw [heq] at h; exact absurd h (by simp)
  · rw [heq] at h
    have hr : applyRepoFields repo fields account organization = r := by
      simpa using congrArg Prod.fst h
    subst hr
    refine ⟨rfl, ?_, ?_⟩ <;> intro hp <;>
      simp only [applyRepoFields] at hp ⊢ <;> simp [hp]

/-- Concrete instance of the C2 theorem: importing a private payload yields
a record cloned over SSH. -/
theorem create_repository_clone_url_witness :
    (applyRepoFields
       { full_name := samplePrivateFields.full_name, account := 1,
         users := [1] } samplePrivateFields 1 none).clone_url =
      samplePrivateFields.ssh_url :=
  (create_repository_clone_url 1 1 [] samplePrivateFields "private" none
    _ _ rfl).2.1 rfl

/- ## C3: cross-organization conflicts are skipped -/

/-- C3: for an existing row already linked to organization A, calling
`create_repository` for the same (full name, user, account) under a
different organization B returns nothing and leaves the whole table — in
particular every field of the existing row — unchanged. -/
theorem create_repository_cross_org_skip (user account a : Nat)
    (db : List RemoteRepository) (fields : RepoFields) (privacy : String)
    (organization : Option Nat) (r : RemoteRepository)
    (hget : getRepoByKey db fields.full_name user account = some r)
    (horg : r.organization = some a)
    (hdiff : organization ≠ some a) :
    create_repository user account db fields privacy organization =
      (none, db) := by
  by_cases him : importCond fields privacy = true
  · rw [create_repository_existing _ _ _ _ _ _ _ him hget]
    apply saveRepository_of_conflict
    rw [horg]
    simp only [Option.isSome_some, Bool.true_and, bne_iff_ne]
    exact fun hcontra => hdiff hcontra.symm
  · exact create_repository_not_import _ _ _ _ _ _
      (by rwa [Bool.not_eq_true] at him)

/-- Concrete instance of the C3 theorem: a row linked to organization 5 is
untouched when presented under organization 7. -/
theorem create_repository_cross_org_skip_witness :
    create_repository 1 1 [sampleLinkedRepo] sampleFields "public" (some 7) =
      (none, [sampleLinkedRepo]) :=
  create_repository_cross_org_skip 1 1 5 [sampleLinkedRepo] sampleFields
    "public" (some 7) sampleLinkedRepo rfl rfl (by decide)

/- ## C10: the user-repositories pass never unlinks an organization -/

/-- C10: for an existing row linked to some organization, calling
`create_repository` without an organization argument — as the
user-repositories pass of `sync_repositories` does — takes the conflict
branch: it returns nothing and leaves the table unchanged, so a plain
user-repository sync never unlinks a repository from its organization. -/
theorem create_repository_no_org_keeps_link (user account a : Nat)
    (db : List RemoteRepository) (fields : RepoFields) (privacy : String)
    (r : RemoteRepository)
    (hget : getRepoByKey db fields.full_name user account = some r)
    (horg : r.organization = some a) :
    create_repository user account db fields privacy none = (none, db) := by
  by_cases him : importCond fields privacy = true
  · rw [create_repository_existing _ _ _ _ _ _ _ him hget]
    apply saveRepository_of_conflict
    rw [horg]
    rfl
  · exact create_repository_not_import _ _ _ _ _ _
      (by rwa [Bool.not_eq_true] at him)

/-- Concrete instance of the C10 theorem: a row linked to organization 5 is
untouched by an organization-less call. -/
theorem create_repository_no_org_keeps_link_witness :
    create_repository 1 1 [sampleLinkedRepo] sampleFields "public" none =
      (none, [sampleLinkedRepo]) :=
  create_repository_no_org_keeps_link 1 1 5 [sampleLinkedRepo] sampleFields
    "public" sampleLinkedRepo rfl rfl

/- ## C1: when create_repository persists -/

/-- C1 counterexample: with requested privacy "private" the claim's
visibility condition holds, yet `create_repository` persists nothing and
modifies nothing — the existing row is linked to a different organization —
so persistence is not equivalent to the visibility condition. -/
theorem create_repository_persists_iff_counterexample :
    importCond sampleFields "private" = true ∧
    create_repository 1 1 [sampleLinkedRepo] sampleFields "private" none =
      (none, [sampleLinkedRepo]) :=
  ⟨rfl, rfl⟩

/-- C1 amended: `create_repository` persists a record exactly when the
visibility condition holds (requested privacy is "private", or the payload
is public and requested privacy is "public") AND no existing row for the
key is linked to a different organization; whenever the visibility
condition fails, and also whenever the organization conflict fires, it
returns nothing and the table is unmodified. -/
theorem create_repository_persists_iff (user account : Nat)
    (db : List RemoteRepository) (fields : RepoFields) (privacy : String)
    (organization : Option Nat) :
    ((create_repository user account db fields privacy organization).1.isSome =
      (importCond fields privacy &&
       !orgConflict db fields.full_name user account organization)) ∧
    (importCond fields privacy = false →
      create_repository user account db fields privacy organization =
        (none, db)) ∧
    (orgConflict db fields.full_name user account organization = true →
      create_repository user account db fields privacy organization =
        (none, db)) := by
  rcases create_repository_cases user account db fields privacy organization
    with ⟨him, heq⟩ | ⟨him, hc, heq⟩ | ⟨him, hc, repo, db1, -, heq⟩
  · refine ⟨?_, fun _ => heq, fun _ => heq⟩
    rw [heq, him]
    rfl
  · refine ⟨?_, ?_, fun _ => heq⟩
    · rw [heq, him, hc]
      rfl
    · intro h0
      exact Bool.noConfusion (him.symm.trans h0)
  · refine ⟨?_, ?_, ?_⟩
    · rw [heq, him, hc]
      rfl
    · intro h0
      exact Bool.noConfusion (him.symm.trans h0)
    · intro h1
      exact Bool.noConfusion (hc.symm.trans h1)

/-- Concrete instance of the amended C1 theorem: an unknown requested
privacy level imports nothing and leaves the table empty. -/
theorem create_repository_persists_iff_witness :
    create_repository 1 1 [] sampleFields "unknown" none = (none, []) :=
  (create_repository_persists_iff 1 1 [] sampleFields "unknown" none).2.1 rfl

/- ## C8: token resolution -/

theorem findSome?_append_cases {α β : Type} (f : α → Option β)
    (l1 l2 : List α) :
    (l1 ++ l2).findSome? f =
      match l1.findSome? f with
      | some b => some b
      | none => l2.findSome? f := by
  induction l1 with
  | nil => simp
  | cons a l ih =>
    cases h : f a <;> simp [List.findSome?_cons, h, ih]

/-- The non-breaking `for user in project.users.all()` loop keeps the token
of the last user having a matching credential. -/
theorem foldl_token_eq_lastMatch (tokensOf : Nat → List String) :
    ∀ (users : List Nat) (init : Option String),
      users.foldl
        (fun token u =>
          match tokensOf u with
          | [] => token
          | t :: _ => some t) init =
      match users.reverse.findSome? (fun u => (tokensOf u).head?) with
      | some t => some t
      | none => init := by
  intro users
  induction users with
  | nil => intro init; simp
  | cons u rest ih =>
    intro init
    rw [List.foldl_cons, ih, List.reverse_cons, findSome?_append_cases]
    cases hr : rest.reverse.findSome? (fun v => (tokensOf v).head?) <;>
      cases ht : tokensOf u <;>
        simp [List.findSome?_cons, List.findSome?_nil, ht]

/-- C8 counterexample: with two users both holding stored credentials the
fallback scan returns the second user's token — the loop never breaks — not
the first match found. -/
theorem get_token_for_project_counterexample :
    get_token_for_project true false false (Except.error ()) [1, 2]
        (fun u => if u == 1 then ["a"] else ["b"]) = some "b" ∧
    firstMatchToken [1, 2] (fun u => if u == 1 then ["a"] else ["b"]) =
      some "a" ∧
    (some "b" : Option String) ≠ some "a" :=
  ⟨rfl, rfl, by decide⟩

/-- C8 amended: `get_token_for_project` returns nothing unless
`ALLOW_PRIVATE_REPOS` is enabled; in the remote branch a raised exception is
caught and nothing is returned, and a successful remote lookup returns that
token; in the fallback scan over the project's users it returns the first
stored credential of the LAST user having one (or nothing); being a total
function of the modelled inputs, it never propagates an exception. -/
theorem get_token_for_project_spec (allow dont_hit_db force_local : Bool)
    (api_token : Except Unit String) (project_users : List Nat)
    (tokensOf : Nat → List String) :
    (allow = false →
      get_token_for_project allow dont_hit_db force_local api_token
        project_users tokensOf = none) ∧
    (allow = true → (dont_hit_db && !force_local) = true →
      api_token = Except.error () →
      get_token_for_project allow dont_hit_db force_local api_token
        project_users tokensOf = none) ∧
    (allow = true → (dont_hit_db && !force_local) = true →
      ∀ t, api_token = Except.ok t →
      get_token_for_project allow dont_hit_db force_local api_token
        project_users tokensOf = some t) ∧
    (allow = true → (dont_hit_db && !force_local) = false →
      get_token_for_project allow dont_hit_db force_local api_token
        project_users tokensOf = lastMatchToken project_users tokensOf) := by
  refine ⟨?_, ?_, ?_, ?_⟩
  · rintro rfl
    rfl
  · rintro rfl hdb rfl
    simp [get_token_for_project, hdb]
  · rintro rfl hdb t rfl
    simp [get_token_for_project, hdb]
  · rintro rfl hdb
    simp only [get_token_for_project, Bool.not_true, Bool.false_eq_true,
      if_false, hdb]
    rw [foldl_token_eq_lastMatch]
    cases h : project_users.reverse.findSome? (fun v => (tokensOf v).head?) <;>
      simp [lastMatchToken, h]

/-- Concrete instance of the C8 theorem: with private-repository support
disabled no token is resolved. -/
theorem get_token_for_project_spec_witness :
    get_token_for_project false true false (Except.ok "t") []
      (fun _ => []) = none :=
  (get_token_for_project_spec false true false (Except.ok "t") []
    (fun _ => [])).1 rfl

/- ## C7: malformed items during repository sync -/

theorem import_repos_stops_at_first_malformed (user account : Nat)
    (privacy : String) (organization : Option Nat) :
    ∀ (repo_items : List RepoPayload) (db : List RemoteRepository),
      none ∈ repo_items →
      (import_repos user account privacy organization db repo_items).1 =
        .error () ∧
      (import_repos user account privacy organization db repo_items).2 =
        repo_items.findIdx (fun i => i.isNone) + 1 := by
  intro items
  induction items with
  | nil =>
    intro db h
    cases h
  | cons item rest ih =>
    intro db h
    cases item with
    | none =>
      exact ⟨rfl, by simp [import_repos, List.findIdx_cons]⟩
    | some fields =>
      have hrest : none ∈ rest := by
        rcases List.mem_cons.mp h with h1 | h1
        · exact Option.noConfusion h1
        · exact h1
      have hh := ih
        ((create_repository user account db fields privacy organization).2)
        hrest
      exact ⟨by simp [import_repos, hh.1],
             by simp [import_repos, hh.2, List.findIdx_cons]⟩

/-- C7: whenever the paginated repository listing contains a malformed item
(one whose field accesses raise `TypeError`/`ValueError`), the error is
replaced by the generic user-facing reconnect-account error, and the import
loop stops at the first malformed item having consumed each item up to it
exactly once — no retry is performed. -/
theorem sync_repositories_malformed (user account : Nat) (privacy : String)
    (repo_items : List RepoPayload) (db : List RemoteRepository)
    (h : none ∈ repo_items) :
    sync_repositories user account privacy repo_items db =
      .error syncReposError ∧
    (import_repos user account privacy none db repo_items).2 =
      repo_items.findIdx (fun i => i.isNone) + 1 := by
  have hh := import_repos_stops_at_first_malformed user account privacy none
    repo_items db h
  exact ⟨by simp [sync_repositories, hh.1], hh.2⟩

/-- Concrete instance of the C7 theorem: one good item then a malformed one
yields the reconnect error after consuming exactly two items. -/
theorem sync_repositories_malformed_witness :
    sync_repositories 1 1 "public" [some sampleFields, none] [] =
      .error syncReposError ∧
    (import_repos 1 1 "public" none [] [some sampleFields, none]).2 =
      [some sampleFields, none].findIdx (fun i => i.isNone) + 1 :=
  sync_repositories_malformed 1 1 "public" [some sampleFields, none] []
    (by simp)

/- ## C5: sync stage sequencing -/

/-- C5 counterexample: a malformed repository item makes `sync` propagate
the repository-stage error, and the organizations stage — whose own input
is well formed — is never attempted: the two stages are not
failure-independent. -/
theorem sync_stages_counterexample :
    sync { user := 1, account := 1, privacy := "public",
           repo_items := [none],
           org_entries := [{ detail := some sampleOrgFields, repos := [] }] }
        { repos := [], orgdb := { orgs := [], next_id := 0 } } =
      (.error syncReposError, ["sync_repositories"]) ∧
    "sync_organizations" ∉ ["sync_repositories"] :=
  ⟨rfl, by decide⟩

/-- C5 amended: `sync` calls `sync_repositories` and then
`sync_organizations`, but the stages are not failure-independent: an
exception raised by `sync_repositories` propagates out of `sync` and
`sync_organizations` is not attempted; the organizations stage runs exactly
when the repositories stage succeeded. -/
theorem sync_stages (env : SyncEnv) (st : DBState) :
    (∀ e, sync_repositories env.user env.account env.privacy env.repo_items
        st.repos = .error e →
      sync env st = (.error e, ["sync_repositories"])) ∧
    (∀ repos',
      sync_repositories env.user env.account env.privacy env.repo_items
          st.repos = .ok repos' →
      (sync env st).2 = ["sync_repositories", "sync_organizations"] ∧
      (sync env st).1 =
        sync_organizations env.user env.account env.privacy env.org_entries
          { repos := repos', orgdb := st.orgdb }) := by
  constructor
  · intro e he
    simp [sync, he]
  · intro repos' hok
    constructor
    · cases ho : sync_organizations env.user env.account env.privacy
          env.org_entries { repos := repos', orgdb := st.orgdb } <;>
        simp [sync, hok, ho]
    · cases ho : sync_organizations env.user env.account env.privacy
          env.org_entries { repos := repos', orgdb := st.orgdb } <;>
        simp [sync, hok, ho]

/-- Concrete instance of the C5 theorem: a failing repositories stage makes
`sync` return its error with only that stage attempted. -/
theorem sync_stages_witness :
    sync { user := 1, account := 1, privacy := "public",
           repo_items := [none], org_entries := [] }
        { repos := [], orgdb := { orgs := [], next_id := 0 } } =
      (.error syncReposError, ["sync_repositories"]) :=
  (sync_stages
    { user := 1, account := 1, privacy := "public", repo_items := [none],
      org_entries := [] }
    { repos := [], orgdb := { orgs := [], next_id := 0 } }).1
    syncReposError rfl

/- ## C9: upserts never duplicate and never delete -/

theorem create_organization_fresh (user account : Nat) (db : OrgDB)
    (fields : OrgFields)
    (h : db.orgs.find? (orgKeyMatch fields.login user account) = none) :
    create_organization user account db fields =
      (applyOrgFields
         { id := db.next_id, slug := fields.login, account := account,
           users := [user] } fields account,
       { orgs := replaceFirst (orgKeyMatch fields.login user account)
                   (applyOrgFields
                      { id := db.next_id, slug := fields.login,
                        account := account, users := [user] } fields account)
                   (db.orgs ++
                    [{ id := db.next_id, slug := fields.login,
                       account := account, users := [user] }])
         next_id := db.next_id + 1 }) := by
  simp only [create_organization, h]

theorem create_organization_existing (user account : Nat) (db : OrgDB)
    (fields : OrgFields) (o : RemoteOrganization)
    (h : db.orgs.find? (orgKeyMatch fields.login user account) = some o) :
    create_organization user account db fields =
      (applyOrgFields o fields account,
       { db with
         orgs := replaceFirst (orgKeyMatch fields.login user account)
                   (applyOrgFields o fields account) db.orgs }) := by
  simp only [create_organization, h]

theorem create_repository_table_never_shrinks (user account : Nat)
    (db : List RemoteRepository) (fields : RepoFields) (privacy : String)
    (organization : Option Nat) :
    db.length ≤
      (create_repository user account db fields privacy organization).2.length := by
  rcases create_repository_cases user account db fields privacy organization
    with ⟨-, heq⟩ | ⟨-, -, heq⟩ | ⟨-, -, repo, db1, hlen, heq⟩
  · rw [heq]
  · rw [heq]
  · rw [heq]
    simpa [replaceFirst_length] using hlen

theorem create_organization_table_never_shrinks (user account : Nat)
    (db : OrgDB) (fields : OrgFields) :
    db.orgs.length ≤
      (create_organization user account db fields).2.orgs.length := by
  rcases h : db.orgs.find? (orgKeyMatch fields.login user account) with _ | o
  · rw [create_organization_fresh _ _ _ _ h]
    simp [replaceFirst_length, Nat.le_succ]
  · rw [create_organization_existing _ _ _ _ _ h]
    simp [replaceFirst_length]

/-- Upserting the same repository key twice into a table with no row for the
key produces the original table extended by exactly the one, twice
overwritten, row. -/
theorem create_repository_twice_eq (user account : Nat) (privacy : String)
    (db : List RemoteRepository) (f1 f2 : RepoFields)
    (hname : f2.full_name = f1.full_name)
    (him1 : importCond f1 privacy = true)
    (him2 : importCond f2 privacy = true)
    (hfresh : countRepoKey db f1.full_name user account = 0) :
    (create_repository user account
       (create_repository user account db f1 privacy none).2
       f2 privacy none).2 =
      db ++ [applyRepoFields
               (applyRepoFields
                  { full_name := f1.full_name, account := account,
                    users := [user] } f1 account none) f2 account none] := by
  have hall : ∀ x ∈ db, ¬(repoKeyMatch f1.full_name user account x = true) :=
    List.countP_eq_zero.mp hfresh
  have hnone : getRepoByKey db f1.full_name user account = none :=
    List.find?_eq_none.mpr hall
  have hpredbare :
      repoKeyMatch f1.full_name user account
        { full_name := f1.full_name, account := account, users := [user] } =
        true := by
    simp [repoKeyMatch]
  have hpredr1 :
      repoKeyMatch f1.full_name user account
        (applyRepoFields
           { full_name := f1.full_name, account := account, users := [user] }
           f1 account none) = true := by
    simp [repoKeyMatch, applyRepoFields]
  have hdb1 : (create_repository user account db f1 privacy none).2 =
      db ++ [applyRepoFields
               { full_name := f1.full_name, account := account,
                 users := [user] } f1 account none] := by
    rw [create_repository_fresh _ _ _ _ _ _ him1 hnone]
    have hs1 := saveRepository_of_no_conflict user account f1 none
      { full_name := f1.full_name, account := account, users := [user] }
      (db ++ [{ full_name := f1.full_name, account := account,
                users := [user] }]) rfl
    rw [hs1]
    show replaceFirst _ _ _ = _
    rw [replaceFirst_append_left _ _ _ _ hall]
    simp [replaceFirst, hpredbare]
  have hget2 : getRepoByKey
      (create_repository user account db f1 privacy none).2
      f2.full_name user account =
      some (applyRepoFields
              { full_name := f1.full_name, account := account,
                users := [user] } f1 account none) := by
    rw [hname, hdb1]
    show List.find? _ _ = _
    rw [find?_append_left_none _ _ _ hall]
    simp [List.find?_cons, hpredr1]
  rw [create_repository_existing _ _ _ _ _ _ _ him2 hget2]
  have hs2 := saveRepository_of_no_conflict user account f2 none
    (applyRepoFields
       { full_name := f1.full_name, account := account, users := [user] }
       f1 account none)
    (create_repository user account db f1 privacy none).2 rfl
  rw [hs2]
  show replaceFirst _ _ _ = _
  rw [hname, hdb1, replaceFirst_append_left _ _ _ _ hall]
  simp [replaceFirst, hpredr1]

/-- Upserting the same organization key twice into a table with no row for
the key produces the original table extended by exactly the one, twice
overwritten, row. -/
theorem create_organization_twice_eq (user account : Nat) (odb : OrgDB)
    (g1 g2 : OrgFields)
    (hslug : g2.login = g1.login)
    (hofresh : countOrgKey odb.orgs g1.login user account = 0) :
    (create_organization user account
       (create_organization user account odb g1).2 g2).2.orgs =
      odb.orgs ++ [applyOrgFields
                     (applyOrgFields
                        { id := odb.next_id, slug := g1.login,
                          account := account, users := [user] } g1 account)
                     g2 account] := by
  have hall : ∀ x ∈ odb.orgs, ¬(orgKeyMatch g1.login user account x = true) :=
    List.countP_eq_zero.mp hofresh
  have honone : odb.orgs.find? (orgKeyMatch g1.login user account) = none :=
    List.find?_eq_none.mpr hall
  have hpbare : orgKeyMatch g1.login user account
      { id := odb.next_id, slug := g1.login, account := account,
        users := [user] } = true := by
    simp [orgKeyMatch]
  have ho1 : orgKeyMatch g1.login user account
      (applyOrgFields
         { id := odb.next_id, slug := g1.login, account := account,
           users := [user] } g1 account) = true := by
    simp [orgKeyMatch, applyOrgFields]
  have hdb1 : (create_organization user account odb g1).2.orgs =
      odb.orgs ++ [applyOrgFields
                     { id := odb.next_id, slug := g1.login,
                       account := account, users := [user] } g1 account] := by
    rw [create_organization_fresh _ _ _ _ honone]
    show replaceFirst _ _ _ = _
    rw [replaceFirst_append_left _ _ _ _ hall]
    simp [replaceFirst, hpbare]
  have hget2 : (create_organization user account odb g1).2.orgs.find?
      (orgKeyMatch g2.login user account) =
      some (applyOrgFields
              { id := odb.next_id, slug := g1.login, account := account,
                users := [user] } g1 account) := by
    rw [hslug, hdb1, find?_append_left_none _ _ _ hall]
    simp [List.find?_cons, ho1]
  rw [create_organization_existing _ _ _ _ _ hget2]
  show replaceFirst _ _ _ = _
  rw [hslug, hdb1, replaceFirst_append_left _ _ _ _ hall]
  simp [replaceFirst, ho1]

/-- C9: upserting twice with the same natural key — (full name, user,
account) for repositories via `create_repository`, (slug, user, account)
for organizations via `create_organization` — creates one row and then
updates it in place: exactly one row matches the key afterwards and each
table grew by exactly the one row; moreover neither upsert ever shrinks a
table, so records are never deleted by this component. -/
theorem upsert_same_key_no_duplicates (user account : Nat) (privacy : String)
    (db : List RemoteRepository) (f1 f2 : RepoFields)
    (odb : OrgDB) (g1 g2 : OrgFields)
    (hname : f2.full_name = f1.full_name)
    (him1 : importCond f1 privacy = true)
    (him2 : importCond f2 privacy = true)
    (hfresh : countRepoKey db f1.full_name user account = 0)
    (hslug : g2.login = g1.login)
    (hofresh : countOrgKey odb.orgs g1.login user account = 0) :
    (countRepoKey
        (create_repository user account
          (create_repository user account db f1 privacy none).2
          f2 privacy none).2 f1.full_name user account = 1 ∧
      (create_repository user account
        (create_repository user account db f1 privacy none).2
        f2 privacy none).2.length = db.length + 1 ∧
      getRepoByKey
        (create_repository user account
          (create_repository user account db f1 privacy none).2
          f2 privacy none).2 f1.full_name user account =
        some (applyRepoFields
                (applyRepoFields
                   { full_name := f1.full_name, account := account,
                     users := [user] } f1 account none) f2 account none)) ∧
    (countOrgKey
        (create_organization user account
          (create_organization user account odb g1).2 g2).2.orgs
        g1.login user account = 1 ∧
      (create_organization user account
        (create_organization user account odb g1).2 g2).2.orgs.length =
        odb.orgs.length + 1) ∧
    (∀ (d : List RemoteRepository) (f : RepoFields) (p : String)
        (o : Option Nat),
      d.length ≤ (create_repository user account d f p o).2.length) ∧
    (∀ (d : OrgDB) (g : OrgFields),
      d.orgs.length ≤ (create_organization user account d g).2.orgs.length) := by
  refine ⟨⟨?_, ?_, ?_⟩, ⟨?_, ?_⟩, ?_, ?_⟩
  · rw [create_repository_twice_eq user account privacy db f1 f2 hname him1
      him2 hfresh]
    simp only [countRepoKey, List.countP_append] at hfresh ⊢
    rw [hfresh]
    simp [List.countP_cons, repoKeyMatch, applyRepoFields]
  · rw [create_repository_twice_eq user account privacy db f1 f2 hname him1
      him2 hfresh]
    simp
  · rw [create_repository_twice_eq user account privacy db f1 f2 hname him1
      him2 hfresh]
    have hall : ∀ x ∈ db,
        ¬(repoKeyMatch f1.full_name user account x = true) :=
      List.countP_eq_zero.mp hfresh
    show List.find? _ _ = _
    rw [find?_append_left_none _ _ _ hall]
    simp [List.find?_cons, repoKeyMatch, applyRepoFields]
  · rw [create_organization_twice_eq user account odb g1 g2 hslug hofresh]
    simp only [countOrgKey, List.countP_append] at hofresh ⊢
    rw [hofresh]
    simp [List.countP_cons, orgKeyMatch, applyOrgFields]
  · rw [create_organization_twice_eq user account odb g1 g2 hslug hofresh]
    simp
  · intro d f p o
    exact create_repository_table_never_shrinks user account d f p o
  · intro d g
    exact create_organization_table_never_shrinks user account d g

/-- Concrete instance of the C9 theorem: importing the same payloads twice
into empty tables leaves exactly one row per key. -/
theorem upsert_same_key_no_duplicates_witness :
    countRepoKey
        (create_repository 1 1
          (create_repository 1 1 [] sampleFields "public" none).2
          sampleFields "public" none).2 sampleFields.full_name 1 1 = 1 ∧
    (create_repository 1 1
        (create_repository 1 1 [] sampleFields "public" none).2
        sampleFields "public" none).2.length = 1 ∧
    countOrgKey
        (create_organization 1 1
          (create_organization 1 1 ⟨[], 0⟩ sampleOrgFields).2
          sampleOrgFields).2.orgs sampleOrgFields.login 1 1 = 1 ∧
    (create_organization 1 1
        (create_organization 1 1 ⟨[], 0⟩ sampleOrgFields).2
        sampleOrgFields).2.orgs.length = 1 := by
  have h := upsert_same_key_no_duplicates 1 1 "public" [] sampleFields
    sampleFields ⟨[], 0⟩ sampleOrgFields sampleOrgFields rfl rfl rfl rfl rfl
    rfl
  exact ⟨h.1.1, h.1.2.1, h.2.1.1, h.2.1.2⟩
